import Mathlib

/-!
# Verification of the sky-correction stage pipeline (`skyCorrection.py`)

A shallow embedding of `lsst/pipe/drivers/skyCorrection.py`.  Images are
abstracted to integer-valued pixel aggregates (exact arithmetic), but the
control structure of the coordinator is modelled faithfully:

* `Exposure` objects live on a heap (`PoolState.heap`) and are addressed by
  reference, so in-place mutation and `clone()` have their Python meaning:
  `loadImage` allocates a fresh heap cell for the clone, and every later
  stage writes only through the worker cache's reference.
* Worker caches (`UnitCache`) are keyed by data identifier; the affinity
  dispatch `mapToPrevious` is modelled by `runOnCache`, which looks up the
  unit's cache, lets the stage transform the cached exposure/cache pair,
  and writes both back.
* Fallible operations (a missing dataset, a violated `assert`) return
  `Except StageError`.

Components that live in `lsst/pipe/drivers/background.py`
(`FocalPlaneBackground`, `SkyMeasurementTask`), which is part of the same
repository but is not among the provided sources, are modelled from the
spec; their doc comments say so explicitly.
-/

namespace SkyCorr

/-- A data identifier naming one sensor (CCD) within a job; the affinity key. -/
abbrev DataId := Nat

/-- An exposure: the pixel aggregate of the image (exact integer model of the
sum of the masked image), the detector identifier carried by the exposure,
and whether an object-masking pass has been run on it. -/
structure Exposure where
  image : Int
  detector : Nat
  objectsMasked : Bool
deriving DecidableEq, Repr, Inhabited

/-- The worker-local per-unit cache contents set up by `loadImage`
(`cache.dataId`, `cache.bgList`, `cache.sky` in the Python source).
Background components are identified with their image contribution. -/
structure UnitCache where
  dataId : DataId
  bgList : List Int
  sky : Option Int
deriving DecidableEq, Repr

/-- A cache slot together with the heap reference of its `cache.exposure`. -/
structure CacheEntry where
  cache : UnitCache
  ref : Nat
deriving DecidableEq, Repr

/-- The pool-wide worker state: the heap of live exposure objects and the
per-unit cache table (one slot per data identifier, lazily created). -/
structure PoolState where
  heap : List Exposure
  caches : DataId → Option CacheEntry

/-- The input-image dataset variant selected in `SkyCorrectionTask.__init__`
from `config.hasFakes`. -/
inductive CalexpType
  | calexp
  | fakes_calexp
deriving DecidableEq, Repr

/-- The storage access layer (butler), at the interface used by the task:
`calexpRef t d` is the heap reference of the stored processed image of kind
`t` for unit `d` (`none` when the dataset does not exist), `calexpBackground`
is the previously-applied background record (component images, oldest
first), and `skyData` is the static reference sky pattern. -/
structure Butler where
  calexpRef : CalexpType → DataId → Option Nat
  calexpBackground : DataId → List Int
  skyData : DataId → Int

/-- Spatial-scale tuning of one focal-plane background model
(`FocalPlaneBackgroundConfig`): only its presence matters here. -/
structure FocalPlaneBackgroundConfig where
  xSize : Nat
  ySize : Nat
deriving DecidableEq, Repr

/-- `SkyCorrectionConfig`: the phase toggles and parameters of the task. -/
structure SkyCorrectionConfig where
  doMaskObjects : Bool
  doBgModel : Bool
  doBgModel2 : Bool
  doSky : Bool
  binning : Nat
  hasFakes : Bool
  bgModel : FocalPlaneBackgroundConfig
  bgModel2 : FocalPlaneBackgroundConfig
deriving DecidableEq, Repr

/-- The error outcomes of a stage: a missing input artifact, a dispatch to a
worker without a cache slot, a dangling exposure reference, a violated
`assert cache.dataId == dataId` (cache-consistency error), and an access to
a cache attribute no stage has set. -/
inductive StageError
  | storageAccess
  | missingCache
  | danglingRef
  | cacheMismatch
  | missingAttribute
deriving DecidableEq, Repr

/-- Modelled from the spec: `FocalPlaneBackground` is defined in
`lsst/pipe/drivers/background.py`, which belongs to this repository but is
not among the provided sources.  Per the spec it is a focal-plane-wide model
holding per-cell accumulated statistics (the `_values` and `_numbers`
arrays); exact integers stand in for the per-cell statistics. -/
structure FocalPlaneBackground where
  values : List Int
  numbers : List Int
deriving DecidableEq, Repr

/-- Modelled from the spec: a freshly initialized, empty global model shape
for the camera (`FocalPlaneBackground.fromCamera`); every cell statistic
starts at zero. -/
def FocalPlaneBackground.fromCamera (_config : FocalPlaneBackgroundConfig)
    (camera : Nat) : FocalPlaneBackground :=
  { values := List.replicate camera 0, numbers := List.replicate camera 0 }

/-- Modelled from the spec: `clone` produces a per-unit copy of the model;
with value semantics at the master this is the identity. -/
def FocalPlaneBackground.clone (m : FocalPlaneBackground) : FocalPlaneBackground := m

/-- Modelled from the spec: `merge` combines two models by adding the
per-cell accumulated statistics. -/
def FocalPlaneBackground.merge (m p : FocalPlaneBackground) : FocalPlaneBackground :=
  { values := List.zipWith (· + ·) m.values p.values
    numbers := List.zipWith (· + ·) m.numbers p.numbers }

/-- Modelled from the spec: `addCcd` folds one CCD's pixel statistics into
the model's cells; the exact statistic is immaterial here, only that it is a
function of the exposure. -/
def FocalPlaneBackground.addCcd (m : FocalPlaneBackground) (exp : Exposure) :
    FocalPlaneBackground :=
  { values := m.values.map (· + exp.image)
    numbers := m.numbers.map (· + 1) }

/-- Modelled from the spec: `toCcdBackground` projects the global model onto
one sensor's geometry; it is a pure function of the model and the receiving
detector, and produces a single background component (the single entry of
the returned background list). -/
def FocalPlaneBackground.toCcdBackground (m : FocalPlaneBackground)
    (detector : Nat) : Int :=
  m.values.sum + Int.ofNat detector

/-- Modelled from the spec: `SkyMeasurementTask.getSkyData` loads the static
reference sky pattern for a unit from storage. -/
def getSkyData (butler : Butler) (dataId : DataId) : Int :=
  butler.skyData dataId

/-- Modelled from the spec: `SkyMeasurementTask.measureScale` computes a
scale measurement relating the reference pattern to the unit's current
residual sky level; the exact statistic is immaterial here. -/
def measureScale (image sky : Int) : Int :=
  image - sky

/-- Modelled from the spec: `SkyMeasurementTask.solveScales` combines the
per-unit scale measurements into one global scale factor with a robust
combination rule that tolerates outliers and never fails (best-effort
fallback on degenerate input); the median is the model of that rule. -/
def solveScales (scales : List Int) : Int :=
  let sorted := scales.insertionSort (· ≤ ·)
  sorted.getD (sorted.length / 2) 1

/-- The `Struct(dataId=dataId, bgModel=bgModel.clone())` elements dispatched
to `accumulateModel` in `focalPlaneBackground`. -/
structure ModelStruct where
  dataId : DataId
  bgModel : FocalPlaneBackground
deriving DecidableEq, Repr

/-- `measureSkyFrame` (skyCorrection.py lines 230-250): assert the affinity
invariant, load the reference sky pattern into `cache.sky`, and return the
measured scale.  The cached exposure and background list are untouched. -/
def measureSkyFrame (butler : Butler) (exp : Exposure) (cache : UnitCache)
    (dataId : DataId) : Except StageError (Exposure × UnitCache × Int) :=
  if cache.dataId = dataId then
    let sky := getSkyData butler dataId
    .ok (exp, { cache with sky := some sky }, measureScale exp.image sky)
  else .error .cacheMismatch

/-- `subtractSkyFrame` (lines 252-273): assert the affinity invariant, then
(inside `SkyMeasurementTask.subtractSkyFrame`, modelled from the spec) scale
the cached reference pattern, subtract it from the cached image, and append
the scaled reference to the background list.  Returns the collected
(detector, image) pair (`self.collect`). -/
def subtractSkyFrame (exp : Exposure) (cache : UnitCache) (dataId : DataId)
    (scale : Int) : Except StageError (Exposure × UnitCache × (Nat × Int)) :=
  if cache.dataId = dataId then
    match cache.sky with
    | none => .error .missingAttribute
    | some sky =>
      let component := scale * sky
      .ok ({ exp with image := exp.image - component },
           { cache with bgList := cache.bgList ++ [component] },
           (exp.detector, exp.image - component))
  else .error .cacheMismatch

/-- `accumulateModel` (lines 275-295): assert the affinity invariant against
the dispatched struct's `dataId`, fold the cached exposure into the unit's
clone of the model, and return the updated model fragment.  Neither the
cached exposure nor the cache is modified. -/
def accumulateModel (exp : Exposure) (cache : UnitCache) (data : ModelStruct) :
    Except StageError (Exposure × UnitCache × FocalPlaneBackground) :=
  if cache.dataId = data.dataId then
    .ok (exp, cache, data.bgModel.addCcd exp)
  else .error .cacheMismatch

/-- `subtractModel` (lines 297-324): assert the affinity invariant, project
the merged global model onto the cached exposure's detector, subtract the
projected component from the cached image, and append it (the single entry
`cache.bgModel[0]`) to the background list.  Returns the collected
(detector, image) pair. -/
def subtractModel (bgModel : FocalPlaneBackground) (exp : Exposure)
    (cache : UnitCache) (dataId : DataId) :
    Except StageError (Exposure × UnitCache × (Nat × Int)) :=
  if cache.dataId = dataId then
    let localBg := bgModel.toCcdBackground exp.detector
    .ok ({ exp with image := exp.image - localBg },
         { cache with bgList := cache.bgList ++ [localBg] },
         (exp.detector, exp.image - localBg))
  else .error .cacheMismatch

/-- `write` (lines 459-471): persist the unit's accumulated background list
(`butler.put(cache.bgList, "skyCorr", dataId)`), leaving cache and exposure
untouched.  The put is returned as a (dataId, bgList) pair and collected by
the coordinator model. -/
def write (exp : Exposure) (cache : UnitCache) (dataId : DataId) :
    Except StageError (Exposure × UnitCache × (DataId × List Int)) :=
  .ok (exp, cache, (dataId, cache.bgList))

/-- The affinity dispatch of one stage call (`pool.mapToPrevious` routing,
one unit): look up the unit's cache slot, dereference its cached exposure,
run the stage on (exposure, cache, dataId), and write the updated exposure
back through the same reference (in-place mutation of `cache.exposure`). -/
def runOnCache {α : Type}
    (f : Exposure → UnitCache → DataId → Except StageError (Exposure × UnitCache × α))
    (st : PoolState) (dataId : DataId) : Except StageError (PoolState × α) :=
  match st.caches dataId with
  | none => .error .missingCache
  | some e =>
    match st.heap[e.ref]? with
    | none => .error .danglingRef
    | some exp =>
      match f exp e.cache dataId with
      | .error err => .error err
      | .ok (exp2, c2, a) =>
        .ok ({ heap := st.heap.set e.ref exp2
               caches := fun x => if x = dataId then some ⟨c2, e.ref⟩ else st.caches x },
             a)

/-- A pool map over the data identifiers: the master blocks until each unit
has returned; results are collected in input order; the first failure fails
the stage. -/
def poolMapM {α : Type}
    (f : PoolState → DataId → Except StageError (PoolState × α)) :
    PoolState → List DataId → Except StageError (PoolState × List α)
  | st, [] => .ok (st, [])
  | st, d :: rest =>
    match f st d with
    | .error e => .error e
    | .ok (st1, a) =>
      match poolMapM f st1 rest with
      | .error e => .error e
      | .ok (st2, as) => .ok (st2, a :: as)

/-- The dataset variant selected in `SkyCorrectionTask.__init__`
(lines 70-73). -/
def calexpType (config : SkyCorrectionConfig) : CalexpType :=
  if config.hasFakes = true then .fakes_calexp else .calexp

/-- `loadImage` (lines 193-228), dispatched through the stateless
`pool.map`: record the dispatched `dataId` in the cache, clone the stored
processed image (a fresh heap cell, leaving the butler's object untouched),
negate every component of the previously-applied background record, subtract
the negated record's image (thereby re-adding the original background and
restoring the uncorrected sky level), initialize `cache.bgList` to the
negated history, and, when `doMaskObjects` is set, run the object-masking
pass on the restored exposure. -/
def loadImage (config : SkyCorrectionConfig) (butler : Butler)
    (st : PoolState) (dataId : DataId) :
    Except StageError (PoolState × (Nat × Int)) :=
  match butler.calexpRef (calexpType config) dataId with
  | none => .error .storageAccess
  | some r =>
    match st.heap[r]? with
    | none => .error .danglingRef
    | some stored =>
      let bgOld := (butler.calexpBackground dataId).map (fun c => -c)
      let exp1 : Exposure :=
        { image := stored.image - bgOld.sum
          detector := stored.detector
          objectsMasked := config.doMaskObjects || stored.objectsMasked }
      let cache : UnitCache := { dataId := dataId, bgList := bgOld, sky := none }
      .ok ({ heap := st.heap ++ [exp1]
             caches := fun x =>
               if x = dataId then some ⟨cache, st.heap.length⟩ else st.caches x },
           (exp1.detector, exp1.image))

/-- `focalPlaneBackground` (lines 164-191): initialize an empty model from
the camera, dispatch `accumulateModel` with per-unit clones through the
affinity map, merge the returned fragments sequentially into the model
(`bgModel.merge(bg)` in collection order), and dispatch `subtractModel` with
the merged model. -/
def focalPlaneBackground (config : FocalPlaneBackgroundConfig) (camera : Nat)
    (st : PoolState) (dataIdList : List DataId) :
    Except StageError (PoolState × List (Nat × Int)) :=
  let bgModel := FocalPlaneBackground.fromCamera config camera
  match poolMapM
      (runOnCache fun exp c d => accumulateModel exp c ⟨d, bgModel.clone⟩)
      st dataIdList with
  | .error e => .error e
  | .ok (st1, bgModelList) =>
    let merged := bgModelList.foldl (fun m p => m.merge p) bgModel
    poolMapM (runOnCache (subtractModel merged)) st1 dataIdList

/-- The sky-frame phase of `runDataRef` (lines 145-149): measure per-unit
scales through the affinity map, solve the global scale on the master, and
dispatch `subtractSkyFrame` parameterized by the solved scale. -/
def skyPhase (butler : Butler) (st : PoolState) (dataIdList : List DataId) :
    Except StageError (PoolState × List (Nat × Int)) :=
  match poolMapM (runOnCache (measureSkyFrame butler)) st dataIdList with
  | .error e => .error e
  | .ok (st1, measScales) =>
    let scale := solveScales measScales
    poolMapM (runOnCache fun exp c d => subtractSkyFrame exp c d scale) st1 dataIdList

/-- The unit-identifier list of a job (lines 131-132): the sensors of the
exposure whose input image dataset (of the configured variant) exists. -/
def jobDataIdList (config : SkyCorrectionConfig) (butler : Butler)
    (subItems : List DataId) : List DataId :=
  subItems.filter fun d => (butler.calexpRef (calexpType config) d).isSome

/-- The outcome of a job: the final pool state and the per-unit `skyCorr`
background lists persisted by the `write` stage, in dispatch order. -/
structure JobResult where
  state : PoolState
  skyCorrPut : List (DataId × List Int)

/-- `runDataRef` (lines 102-162): clear the pool caches, enumerate the units
whose input image exists, load and restore every unit (stateless map), then
run the config-gated phases — background model A, sky frame, background
model B — and finally persist every unit's background list.  The debug
branches are dead (`DEBUG = False`) and the camera-image visualization is
out of scope. -/
def runDataRef (config : SkyCorrectionConfig) (butler : Butler) (camera : Nat)
    (subItems : List DataId) (st₀ : PoolState) : Except StageError JobResult :=
  let st : PoolState := { heap := st₀.heap, caches := fun _ => none }
  let dataIdList := jobDataIdList config butler subItems
  match poolMapM (loadImage config butler) st dataIdList with
  | .error e => .error e
  | .ok (st1, _) =>
    match (if config.doBgModel = true then
             focalPlaneBackground config.bgModel camera st1 dataIdList
           else .ok (st1, [])) with
    | .error e => .error e
    | .ok (st2, _) =>
      match (if config.doSky = true then skyPhase butler st2 dataIdList
             else .ok (st2, [])) with
      | .error e => .error e
      | .ok (st3, _) =>
        match (if config.doBgModel2 = true then
                 focalPlaneBackground config.bgModel2 camera st3 dataIdList
               else .ok (st3, [])) with
        | .error e => .error e
        | .ok (st4, _) =>
          match poolMapM (runOnCache write) st4 dataIdList with
          | .error e => .error e
          | .ok (st5, puts) => .ok ⟨st5, puts⟩

/-- The module-level debugging flag (line 14 of the source). -/
def DEBUG : Bool := false

/-- The pool operations issued by `runDataRef`, in the order the master
issues them; `cacheClear` and `storeSet` are pool management, the rest are
stage dispatches. -/
inductive PoolOp
  | cacheClear
  | storeSet
  | mapLoad
  | mapCollectOriginal
  | mapCollectMask
  | mapAccumulate
  | mapSubtractModel
  | mapMeasureSky
  | mapSubtractSky
  | mapCollectSky
  | mapWrite
deriving DecidableEq, Repr

/-- Which pool operations dispatch a stage to workers. -/
def PoolOp.isDispatch : PoolOp → Bool
  | .cacheClear => false
  | .storeSet => false
  | _ => true

/-- The sequence of pool operations issued by one `runDataRef` call
(lines 126-162), including the `DEBUG`-gated dispatches (dead, since
`DEBUG = False`). -/
def runDataRefTrace (config : SkyCorrectionConfig) : List PoolOp :=
  [.cacheClear, .storeSet, .mapLoad]
    ++ (if DEBUG = true then [.mapCollectOriginal, .mapCollectMask] else [])
    ++ (if config.doBgModel = true then [.mapAccumulate, .mapSubtractModel] else [])
    ++ (if config.doSky = true then
          [.mapMeasureSky, .mapSubtractSky]
            ++ (if DEBUG = true then [.mapCollectSky] else [])
        else [])
    ++ (if config.doBgModel2 = true then [.mapAccumulate, .mapSubtractModel] else [])
    ++ [.mapWrite]

/-- The exposure held by the storage layer for a unit (default when the
dataset is absent); used to state what `loadImage` restores. -/
def storedExp (config : SkyCorrectionConfig) (butler : Butler)
    (heap : List Exposure) (dataId : DataId) : Exposure :=
  match butler.calexpRef (calexpType config) dataId with
  | some r => heap.getD r default
  | none => default

/-- The exposure produced by `loadImage` for a unit: the stored image with
the previously-applied background re-added (the restored, uncorrected sky
level), the stored detector, and the object-masking flag. -/
def loadedExp (config : SkyCorrectionConfig) (butler : Butler)
    (heap : List Exposure) (dataId : DataId) : Exposure :=
  { image := (storedExp config butler heap dataId).image
      + (butler.calexpBackground dataId).sum
    detector := (storedExp config butler heap dataId).detector
    objectsMasked :=
      config.doMaskObjects || (storedExp config butler heap dataId).objectsMasked }

/-- The cache contents set up by `loadImage` for a unit: the dispatched
identifier and the negated background history. -/
def loadCache (butler : Butler) (dataId : DataId) : UnitCache :=
  { dataId := dataId
    bgList := (butler.calexpBackground dataId).map (fun c => -c)
    sky := none }

/-! ## Elementary helper lemmas -/

/-- Negating every component of a background record negates its summed image. -/
theorem sum_map_neg (l : List Int) : (l.map (fun c => -c)).sum = -l.sum := by
  induction l with
  | nil => simp
  | cons x xs ih => simp [ih]; ring

/-- `getD` on a replicated list inside the range returns the replicated value. -/
theorem getD_replicate (n j : Nat) (v d : Int) (h : j < n) :
    (List.replicate n v).getD j d = v := by
  rw [List.getD_eq_getElem?_getD, List.getElem?_replicate_of_lt h]
  rfl

/-- A replicated list is sorted. -/
theorem sorted_replicate (n : Nat) (v : Int) :
    List.Sorted (· ≤ ·) (List.replicate n v) :=
  List.pairwise_replicate.mpr (Or.inr le_rfl)

/-! ## Order independence of `merge` (model aggregation) -/

/-- Cellwise addition of statistics commutes on the right. -/
theorem zipWith_add_right_comm (v a b : List Int) :
    List.zipWith (· + ·) (List.zipWith (· + ·) v a) b
      = List.zipWith (· + ·) (List.zipWith (· + ·) v b) a := by
  induction v generalizing a b with
  | nil => simp
  | cons x xs ih =>
    cases a with
    | nil => simp
    | cons y ys =>
      cases b with
      | nil => simp
      | cons z zs =>
        simp only [List.zipWith_cons_cons]
        rw [add_right_comm x y z, ih ys zs]

/-- Merging two fragments into a model in either order gives the same model. -/
theorem merge_right_comm (m a b : FocalPlaneBackground) :
    (m.merge a).merge b = (m.merge b).merge a := by
  simp only [FocalPlaneBackground.merge]
  rw [zipWith_add_right_comm m.values a.values b.values,
    zipWith_add_right_comm m.numbers a.numbers b.numbers]

/-- Folding `merge` over a list of fragments is invariant under permutation
of the fragment list, whatever the starting model. -/
theorem foldl_merge_perm {l₁ l₂ : List FocalPlaneBackground} (hp : l₁.Perm l₂) :
    ∀ m : FocalPlaneBackground,
      l₁.foldl (fun acc p => acc.merge p) m = l₂.foldl (fun acc p => acc.merge p) m := by
  induction hp with
  | nil => intro m; rfl
  | cons x _ ih => intro m; simp only [List.foldl_cons]; exact ih _
  | swap x y l => intro m; simp only [List.foldl_cons]; rw [merge_right_comm]
  | trans _ _ ih₁ ih₂ => intro m; rw [ih₁ m, ih₂ m]

/-- C4: for any permutation of the order in which per-unit model fragments
are merged in `focalPlaneBackground`, merging the same fragments into the
freshly initialized global model (`FocalPlaneBackground.fromCamera`) yields
an identical global model. -/
theorem merge_order_independent (config : FocalPlaneBackgroundConfig) (camera : Nat)
    (l₁ l₂ : List FocalPlaneBackground) (hp : l₁.Perm l₂) :
    l₁.foldl (fun m p => m.merge p) (FocalPlaneBackground.fromCamera config camera)
      = l₂.foldl (fun m p => m.merge p) (FocalPlaneBackground.fromCamera config camera) :=
  foldl_merge_perm hp _

/-! ## Robustness of the scale solve -/

/-- C7: whenever the per-unit scale measurements are, in any order, a cluster
of `n ≥ 2` units at the consensus value `v` together with one arbitrary
outlier `w`, the solved scale factor is exactly the consensus value `v`
(in particular the total `solveScales` never fails the job, and the outlier
does not influence the result). -/
theorem solveScales_consensus (n : Nat) (v w : Int) (scales : List Int)
    (hn : 2 ≤ n) (hp : scales.Perm (List.replicate n v ++ [w])) :
    solveScales scales = v := by
  have hlen : scales.length = n + 1 := by
    have := hp.length_eq
    simpa using this
  have hps : (scales.insertionSort (· ≤ ·)).Perm scales := List.perm_insertionSort _ _
  have hsorted : List.Sorted (· ≤ ·) (scales.insertionSort (· ≤ ·)) :=
    List.sorted_insertionSort _ _
  have hlen' : (scales.insertionSort (· ≤ ·)).length = n + 1 := by
    rw [hps.length_eq, hlen]
  rcases le_or_lt w v with hw | hv
  · -- the outlier sorts below the cluster
    have htgt : List.Sorted (· ≤ ·) (w :: List.replicate n v) := by
      rw [List.sorted_cons]
      exact ⟨fun b hb => by rw [List.eq_of_mem_replicate hb]; exact hw,
        sorted_replicate n v⟩
    have heq : scales.insertionSort (· ≤ ·) = w :: List.replicate n v :=
      List.eq_of_perm_of_sorted
        (hps.trans (hp.trans (List.perm_append_singleton w (List.replicate n v))))
        hsorted htgt
    obtain ⟨j, hj, hjn⟩ : ∃ j, (n + 1) / 2 = j + 1 ∧ j < n := by
      refine ⟨(n + 1) / 2 - 1, ?_, ?_⟩ <;> omega
    rw [solveScales, hlen', heq, hj, List.getD_cons_succ, getD_replicate n j v 1 hjn]
  · -- the outlier sorts above the cluster
    have htgt : List.Sorted (· ≤ ·) (List.replicate n v ++ [w]) := by
      refine List.pairwise_append.mpr ⟨sorted_replicate n v, by simp, ?_⟩
      intro a ha b hb
      rw [List.eq_of_mem_replicate ha, List.mem_singleton.mp hb]
      exact le_of_lt hv
    have heq : scales.insertionSort (· ≤ ·) = List.replicate n v ++ [w] :=
      List.eq_of_perm_of_sorted (hps.trans hp) hsorted htgt
    have hidx : (n + 1) / 2 < n := by omega
    rw [solveScales, hlen', heq, List.getD_eq_getElem?_getD,
      List.getElem?_append_left (by simpa using hidx),
      List.getElem?_replicate_of_lt hidx]
    rfl

/-! ## The cache-consistency assertion of the affinity stages -/

/-- C2: each affinity-dispatched stage function (`measureSkyFrame`,
`subtractSkyFrame`, `accumulateModel`, `subtractModel`) fails with the fatal
cache-consistency error exactly when the unit identifier recorded in the
worker cache differs from the dispatched identifier; under the matching
precondition that error branch is unreachable. -/
theorem stage_cache_consistency (butler : Butler) (exp : Exposure)
    (cache : UnitCache) (dataId : DataId) (scale : Int) (data : ModelStruct)
    (m : FocalPlaneBackground) :
    (cache.dataId ≠ dataId →
      measureSkyFrame butler exp cache dataId = .error .cacheMismatch) ∧
    (cache.dataId = dataId →
      measureSkyFrame butler exp cache dataId ≠ .error .cacheMismatch) ∧
    (cache.dataId ≠ dataId →
      subtractSkyFrame exp cache dataId scale = .error .cacheMismatch) ∧
    (cache.dataId = dataId →
      subtractSkyFrame exp cache dataId scale ≠ .error .cacheMismatch) ∧
    (cache.dataId ≠ data.dataId →
      accumulateModel exp cache data = .error .cacheMismatch) ∧
    (cache.dataId = data.dataId →
      accumulateModel exp cache data ≠ .error .cacheMismatch) ∧
    (cache.dataId ≠ dataId →
      subtractModel m exp cache dataId = .error .cacheMismatch) ∧
    (cache.dataId = dataId →
      subtractModel m exp cache dataId ≠ .error .cacheMismatch) := by
  refine ⟨?_, ?_, ?_, ?_, ?_, ?_, ?_, ?_⟩ <;> intro h
  · simp [measureSkyFrame, h]
  · simp [measureSkyFrame, h]
  · simp [subtractSkyFrame, h]
  · cases hs : cache.sky <;> simp [subtractSkyFrame, h, hs]
  · simp [accumulateModel, h]
  · simp [accumulateModel, h]
  · simp [subtractModel, h]
  · simp [subtractModel, h]

/-! ## The Load stage -/

/-- What one `loadImage` call does, as an equation (shared helper). -/
theorem loadImage_eq (config : SkyCorrectionConfig) (butler : Butler)
    (st : PoolState) (dataId : DataId) (r : Nat) (stored : Exposure)
    (href : butler.calexpRef (calexpType config) dataId = some r)
    (hexp : st.heap[r]? = some stored) :
    loadImage config butler st dataId = .ok
      ({ heap := st.heap ++
            [{ image := stored.image + (butler.calexpBackground dataId).sum
               detector := stored.detector
               objectsMasked := config.doMaskObjects || stored.objectsMasked }]
         caches := fun x => if x = dataId
             then some ⟨loadCache butler dataId, st.heap.length⟩
             else st.caches x },
       (stored.detector, stored.image + (butler.calexpBackground dataId).sum)) := by
  simp only [loadImage, href, hexp, loadCache, sum_map_neg, sub_neg_eq_add]

/-- C3: `loadImage` opens the processed image (a clone appended to the heap,
the stored object untouched), re-adds the summed background record to the
image (negating every component and subtracting the negated record), sets
the unit's background list to exactly the negated history (`loadCache`),
records the dispatched identifier, and applies the object-masking pass
exactly when `doMaskObjects` is enabled. -/
theorem loadImage_spec (config : SkyCorrectionConfig) (butler : Butler)
    (st : PoolState) (dataId : DataId) (r : Nat) (stored : Exposure)
    (href : butler.calexpRef (calexpType config) dataId = some r)
    (hexp : st.heap[r]? = some stored) :
    loadImage config butler st dataId = .ok
      ({ heap := st.heap ++
            [{ image := stored.image + (butler.calexpBackground dataId).sum
               detector := stored.detector
               objectsMasked := config.doMaskObjects || stored.objectsMasked }]
         caches := fun x => if x = dataId
             then some ⟨loadCache butler dataId, st.heap.length⟩
             else st.caches x },
       (stored.detector, stored.image + (butler.calexpBackground dataId).sum)) :=
  loadImage_eq config butler st dataId r stored href hexp

/-! ## The trace of pool operations -/

/-- C8: in every configuration, `runDataRef` issues the pool-wide cache
clear exactly once, as the very first pool operation (before any stage
dispatch), and the job's outcome does not depend on cache state left by a
previous job. -/
theorem cacheClear_once_first (config : SkyCorrectionConfig) :
    (runDataRefTrace config).count PoolOp.cacheClear = 1 ∧
    (runDataRefTrace config).head? = some PoolOp.cacheClear ∧
    ∀ (butler : Butler) (camera : Nat) (subItems : List DataId) (st₀ : PoolState),
      runDataRef config butler camera subItems st₀
        = runDataRef config butler camera subItems
            { st₀ with caches := fun _ => none } := by
  refine ⟨?_, rfl, fun butler camera subItems st₀ => rfl⟩
  rcases config with ⟨mo, b1, b2, sk, bin, hf, c1, c2⟩
  cases b1 <;> cases b2 <;> cases sk <;> rfl

/-! ## Enumeration of the unit list -/

/-- C10: `runDataRef` enumerates exactly the sensors whose input image
dataset of the configured variant exists (the variant being
`fakes_calexp` iff `hasFakes`); a unit on that list never hits the
storage-access failure branch of `loadImage` (given a well-formed storage
heap), and a sensor with a missing input is excluded at enumeration time. -/
theorem jobDataIdList_spec (config : SkyCorrectionConfig) (butler : Butler)
    (subItems : List DataId) :
    (∀ d, d ∈ jobDataIdList config butler subItems ↔
        d ∈ subItems ∧ (butler.calexpRef (calexpType config) d).isSome = true) ∧
    (calexpType config =
      if config.hasFakes = true then CalexpType.fakes_calexp else CalexpType.calexp) ∧
    (∀ d, d ∈ jobDataIdList config butler subItems →
      ∀ st : PoolState,
        (∀ ro, butler.calexpRef (calexpType config) d = some ro → ro < st.heap.length) →
        ∃ out, loadImage config butler st d = .ok out) := by
  refine ⟨?_, rfl, ?_⟩
  · intro d
    simp [jobDataIdList, List.mem_filter]
  · intro d hd st hw
    have hs : (butler.calexpRef (calexpType config) d).isSome = true :=
      (List.mem_filter.1 hd).2
    obtain ⟨r, hr⟩ := Option.isSome_iff_exists.1 hs
    have hrlt := hw r hr
    have hget : st.heap[r]? = some st.heap[r] := List.getElem?_eq_getElem hrlt
    exact ⟨_, loadImage_eq config butler st d r st.heap[r] hr hget⟩

/-! ## Pool-state invariants

`LoadInv heap₀ st` relates a pool state to the heap `heap₀` the job started
from: the heap only grows, the pre-existing objects (in particular every
exposure held by the storage layer) are never modified, every cache slot
records its own key and references a live exposure allocated by this job
(at or above `heap₀.length`, i.e. a clone, never a stored object), and the
references of distinct units are distinct (exclusive ownership).
`Inv` additionally requires a slot for every unit of the job. -/

structure LoadInv (heap₀ : List Exposure) (st : PoolState) : Prop where
  hlen : heap₀.length ≤ st.heap.length
  hfrozen : ∀ i, i < heap₀.length → st.heap[i]? = heap₀[i]?
  hrefs : ∀ d e, st.caches d = some e →
    e.cache.dataId = d ∧ heap₀.length ≤ e.ref ∧ e.ref < st.heap.length
  hinj : ∀ d₁ d₂ e₁ e₂, st.caches d₁ = some e₁ → st.caches d₂ = some e₂ →
    d₁ ≠ d₂ → e₁.ref ≠ e₂.ref

structure Inv (heap₀ : List Exposure) (ids : List DataId) (st : PoolState)
    extends LoadInv heap₀ st : Prop where
  hslots : ∀ d, d ∈ ids → st.caches d ≠ none

/-- Unfolding equation of `poolMapM` on the empty list. -/
theorem poolMapM_nil {α : Type}
    (f : PoolState → DataId → Except StageError (PoolState × α)) (st : PoolState) :
    poolMapM f st [] = .ok (st, []) := rfl

/-- Unfolding equation of `poolMapM` on a cons. -/
theorem poolMapM_cons {α : Type}
    (f : PoolState → DataId → Except StageError (PoolState × α)) (st : PoolState)
    (d : DataId) (rest : List DataId) :
    poolMapM f st (d :: rest) =
      match f st d with
      | .error e => .error e
      | .ok (st1, a) =>
        match poolMapM f st1 rest with
        | .error e => .error e
        | .ok (st2, as) => .ok (st2, a :: as) := rfl

/-- Characterization of one affinity-mapped stage over a duplicate-free unit
list: the map succeeds, preserves the invariant and the heap length, leaves
the caches of other units and the heap cells of other units untouched, and,
unit by unit, applies the stage function exactly once to the unit's cached
exposure/cache pair; every collected result comes from such an application.
`hid` says the stage never rewrites the recorded unit identifier, and `hok`
that the stage succeeds on the cache contents it is dispatched to. -/
theorem poolMapM_runOnCache_char {α : Type}
    (f : Exposure → UnitCache → DataId → Except StageError (Exposure × UnitCache × α))
    (hid : ∀ exp c d exp2 c2 a, f exp c d = .ok (exp2, c2, a) → c2.dataId = c.dataId)
    (heap₀ : List Exposure) :
    ∀ (l ids : List DataId), (∀ d, d ∈ l → d ∈ ids) → l.Nodup →
    ∀ st : PoolState, Inv heap₀ ids st →
    (∀ d, d ∈ l → ∀ e exp, st.caches d = some e → st.heap[e.ref]? = some exp →
      ∃ r, f exp e.cache d = .ok r) →
    ∃ st2 res, poolMapM (runOnCache f) st l = .ok (st2, res) ∧
      Inv heap₀ ids st2 ∧
      st2.heap.length = st.heap.length ∧
      res.length = l.length ∧
      (∀ x, x ∉ l → st2.caches x = st.caches x) ∧
      (∀ i, (∀ d e, d ∈ l → st.caches d = some e → e.ref ≠ i) →
        st2.heap[i]? = st.heap[i]?) ∧
      (∀ d, d ∈ l → ∀ e exp, st.caches d = some e → st.heap[e.ref]? = some exp →
        ∃ exp2 c2 a, f exp e.cache d = .ok (exp2, c2, a) ∧
          st2.caches d = some ⟨c2, e.ref⟩ ∧ st2.heap[e.ref]? = some exp2 ∧ a ∈ res) ∧
      (∀ a, a ∈ res → ∃ d e exp exp2 c2, d ∈ l ∧ st.caches d = some e ∧
        st.heap[e.ref]? = some exp ∧ f exp e.cache d = .ok (exp2, c2, a)) := by
  intro l
  induction l with
  | nil =>
    intro ids hsub hnd st hInv hok
    exact ⟨st, [], rfl, hInv, rfl, rfl, fun x _ => rfl, fun i _ => rfl,
      fun d hd => absurd hd (List.not_mem_nil d),
      fun a ha => absurd ha (List.not_mem_nil a)⟩
  | cons d rest ih =>
    intro ids hsub hnd st hInv hok
    have hd_ids : d ∈ ids := hsub d (List.mem_cons_self d rest)
    have hdrest : d ∉ rest := (List.nodup_cons.1 hnd).1
    have hndr : rest.Nodup := (List.nodup_cons.1 hnd).2
    obtain ⟨e, he⟩ : ∃ e, st.caches d = some e := by
      cases h : st.caches d with
      | none => exact absurd h (hInv.hslots d hd_ids)
      | some e => exact ⟨e, rfl⟩
    obtain ⟨hdid, hlow, hhi⟩ := hInv.hrefs d e he
    have hexp : st.heap[e.ref]? = some st.heap[e.ref] := List.getElem?_eq_getElem hhi
    obtain ⟨⟨exp2, c2, a⟩, hf⟩ :=
      hok d (List.mem_cons_self d rest) e st.heap[e.ref] he hexp
    set st1 : PoolState :=
      { heap := st.heap.set e.ref exp2
        caches := fun x => if x = d then some ⟨c2, e.ref⟩ else st.caches x } with hst1
    have hstep : runOnCache f st d = .ok (st1, a) := by
      simp only [hst1, runOnCache, he, hexp, hf]
    have hc1 : ∀ x, x ≠ d → st1.caches x = st.caches x := by
      intro x hx
      simp only [hst1, if_neg hx]
    have hc1d : st1.caches d = some ⟨c2, e.ref⟩ := by
      simp [hst1]
    have hh1 : ∀ i, e.ref ≠ i → st1.heap[i]? = st.heap[i]? := by
      intro i hi
      simp only [hst1]
      exact List.getElem?_set_ne hi
    have hh1d : st1.heap[e.ref]? = some exp2 := by
      simp only [hst1]
      exact List.getElem?_set_eq_of_lt exp2 hhi
    have hlen1 : st1.heap.length = st.heap.length := by
      simp [hst1]
    have hInv1 : Inv heap₀ ids st1 := by
      refine ⟨⟨?_, ?_, ?_, ?_⟩, ?_⟩
      · rw [hlen1]; exact hInv.hlen
      · intro i hi
        rw [hh1 i (by omega)]
        exact hInv.hfrozen i hi
      · intro d2 e2 h2
        by_cases hx : d2 = d
        · subst hx
          rw [hc1d] at h2
          cases h2
          refine ⟨?_, by simpa [hlen1] using hlow, by simpa [hlen1] using hhi⟩
          rw [hid _ _ _ _ _ _ hf, hdid]
        · rw [hc1 d2 hx] at h2
          obtain ⟨h1, h2', h3⟩ := hInv.hrefs d2 e2 h2
          exact ⟨h1, h2', by simpa [hlen1] using h3⟩
      · intro d1 d2 e1 e2 h1 h2 hne
        by_cases hx1 : d1 = d
        · subst hx1
          rw [hc1d] at h1
          cases h1
          rw [hc1 d2 (Ne.symm hne)] at h2
          exact hInv.hinj d1 d2 e e2 he h2 hne
        · rw [hc1 d1 hx1] at h1
          by_cases hx2 : d2 = d
          · subst hx2
            rw [hc1d] at h2
            cases h2
            exact hInv.hinj d1 d2 e1 e h1 he hne
          · rw [hc1 d2 hx2] at h2
            exact hInv.hinj d1 d2 e1 e2 h1 h2 hne
      · intro x hx
        by_cases hxd : x = d
        · subst hxd
          rw [hc1d]
          exact Option.some_ne_none _
        · rw [hc1 x hxd]
          exact hInv.hslots x hx
    have hok1 : ∀ d2, d2 ∈ rest → ∀ e2 exp', st1.caches d2 = some e2 →
        st1.heap[e2.ref]? = some exp' → ∃ r, f exp' e2.cache d2 = .ok r := by
      intro d2 hd2 e2 exp' h2 hh2
      have hne : d2 ≠ d := fun h => hdrest (h ▸ hd2)
      rw [hc1 d2 hne] at h2
      rw [hh1 e2.ref (hInv.hinj d d2 e e2 he h2 (Ne.symm hne))] at hh2
      exact hok d2 (List.mem_cons_of_mem d hd2) e2 exp' h2 hh2
    obtain ⟨st2, res, hrun, hInv2, hlen2, hreslen, hcfr, hhfr, hper, hprov⟩ :=
      ih ids (fun x hx => hsub x (List.mem_cons_of_mem d hx)) hndr st1 hInv1 hok1
    have hrestframe : ∀ i, (∀ d' e', d' ∈ d :: rest → st.caches d' = some e' → e'.ref ≠ i) →
        (∀ d' e', d' ∈ rest → st1.caches d' = some e' → e'.ref ≠ i) := by
      intro i hi d' e' hd' h'
      have hne : d' ≠ d := fun h => hdrest (h ▸ hd')
      rw [hc1 d' hne] at h'
      exact hi d' e' (List.mem_cons_of_mem d hd') h'
    refine ⟨st2, a :: res, ?_, hInv2, ?_, ?_, ?_, ?_, ?_, ?_⟩
    · simp only [poolMapM_cons, hstep, hrun]
    · rw [hlen2, hlen1]
    · simp [hreslen]
    · intro x hx
      have hx1 : x ≠ d := fun h => hx (h ▸ List.mem_cons_self d rest)
      have hx2 : x ∉ rest := fun h => hx (List.mem_cons_of_mem d h)
      rw [hcfr x hx2, hc1 x hx1]
    · intro i hi
      rw [hhfr i (hrestframe i hi)]
      exact hh1 i (hi d e (List.mem_cons_self d rest) he)
    · intro d0 hd0 e0 exp0 h0 hh0
      rcases List.mem_cons.1 hd0 with hd0 | hd0
      · subst hd0
        rw [he] at h0
        cases h0
        rw [hexp] at hh0
        cases hh0
        refine ⟨exp2, c2, a, hf, ?_, ?_, List.mem_cons_self a res⟩
        · rw [hcfr d0 hdrest, hc1d]
        · have hfr : ∀ d' e', d' ∈ rest → st1.caches d' = some e' → e'.ref ≠ e.ref := by
            intro d' e' hd' h'
            have hne : d' ≠ d0 := fun h => hdrest (h ▸ hd')
            rw [hc1 d' hne] at h'
            exact hInv.hinj d' d0 e' e h' he hne
          rw [hhfr e.ref hfr]
          exact hh1d
      · have hne : d0 ≠ d := fun h => hdrest (h ▸ hd0)
        have h1 : st1.caches d0 = some e0 := by rw [hc1 d0 hne]; exact h0
        have hh1' : st1.heap[e0.ref]? = some exp0 := by
          rw [hh1 e0.ref (hInv.hinj d d0 e e0 he h0 (Ne.symm hne))]
          exact hh0
        obtain ⟨exp2', c2', a', hf', hca', hhe', hmem'⟩ := hper d0 hd0 e0 exp0 h1 hh1'
        exact ⟨exp2', c2', a', hf', hca', hhe', List.mem_cons_of_mem a hmem'⟩
    · intro a0 ha0
      rcases List.mem_cons.1 ha0 with ha0 | ha0
      · subst ha0
        exact ⟨d, e, st.heap[e.ref], exp2, c2, List.mem_cons_self d rest, he, hexp, hf⟩
      · obtain ⟨d', e', exp', exp2', c2', hd', h', hh', hf'⟩ := hprov a0 ha0
        have hne : d' ≠ d := fun h => hdrest (h ▸ hd')
        rw [hc1 d' hne] at h'
        rw [hh1 e'.ref (hInv.hinj d d' e e' he h' (Ne.symm hne))] at hh'
        exact ⟨d', e', exp', exp2', c2', List.mem_cons_of_mem d hd', h', hh', hf'⟩

/-- A list lookup inside the range, written with the `getD` used by
`storedExp`. -/
theorem getElem?_eq_some_getD (l : List Exposure) (i : Nat) (h : i < l.length) :
    l[i]? = some (l.getD i default) := by
  rw [List.getD_eq_getElem?_getD, List.getElem?_eq_getElem h]
  rfl

/-- Characterization of the load stage over a duplicate-free unit list:
starting from any pool state that only holds clones (in particular the
cleared pool), loading succeeds for every unit whose dataset exists in the
original heap, preserves all pre-existing heap cells, leaves other units'
caches alone, and gives every loaded unit a fresh slot holding exactly
`loadCache` (the negated history) and a fresh clone holding exactly
`loadedExp` (the restored image). -/
theorem poolMapM_loadImage_char (config : SkyCorrectionConfig) (butler : Butler)
    (heap₀ : List Exposure) :
    ∀ (l : List DataId), l.Nodup →
    ∀ st : PoolState, LoadInv heap₀ st →
    (∀ d, d ∈ l → ∃ r, butler.calexpRef (calexpType config) d = some r ∧ r < heap₀.length) →
    ∃ st2 res, poolMapM (loadImage config butler) st l = .ok (st2, res) ∧
      LoadInv heap₀ st2 ∧
      st.heap.length ≤ st2.heap.length ∧
      (∀ i, i < st.heap.length → st2.heap[i]? = st.heap[i]?) ∧
      (∀ x, x ∉ l → st2.caches x = st.caches x) ∧
      (∀ d, d ∈ l → ∃ ref, st2.caches d = some ⟨loadCache butler d, ref⟩ ∧
        st2.heap[ref]? = some (loadedExp config butler heap₀ d)) := by
  intro l
  induction l with
  | nil =>
    intro hnd st hInv hex
    exact ⟨st, [], rfl, hInv, le_rfl, fun i _ => rfl, fun x _ => rfl,
      fun d hd => absurd hd (List.not_mem_nil d)⟩
  | cons d rest ih =>
    intro hnd st hInv hex
    have hdrest : d ∉ rest := (List.nodup_cons.1 hnd).1
    have hndr : rest.Nodup := (List.nodup_cons.1 hnd).2
    obtain ⟨r, href, hrlt⟩ := hex d (List.mem_cons_self d rest)
    have hfr : st.heap[r]? = heap₀[r]? := hInv.hfrozen r hrlt
    have hstored : st.heap[r]? = some (storedExp config butler heap₀ d) := by
      rw [hfr, getElem?_eq_some_getD heap₀ r hrlt]
      simp only [storedExp, href]
    have hstep := loadImage_eq config butler st d r
      (storedExp config butler heap₀ d) href hstored
    set expNew : Exposure := loadedExp config butler heap₀ d with hexpNew
    have hstep' : loadImage config butler st d = .ok
        ({ heap := st.heap ++ [expNew]
           caches := fun x => if x = d
               then some ⟨loadCache butler d, st.heap.length⟩
               else st.caches x },
         (expNew.detector, expNew.image)) := hstep
    set st1 : PoolState :=
      { heap := st.heap ++ [expNew]
        caches := fun x => if x = d
            then some ⟨loadCache butler d, st.heap.length⟩
            else st.caches x } with hst1
    have hc1 : ∀ x, x ≠ d → st1.caches x = st.caches x := by
      intro x hx
      simp only [hst1, if_neg hx]
    have hc1d : st1.caches d = some ⟨loadCache butler d, st.heap.length⟩ := by
      simp [hst1]
    have hlen1 : st1.heap.length = st.heap.length + 1 := by
      simp [hst1]
    have hh1 : ∀ i, i < st.heap.length → st1.heap[i]? = st.heap[i]? := by
      intro i hi
      simp only [hst1]
      exact List.getElem?_append_left hi
    have hh1d : st1.heap[st.heap.length]? = some expNew := by
      simp only [hst1]
      exact List.getElem?_concat_length st.heap expNew
    have hInv1 : LoadInv heap₀ st1 := by
      refine ⟨?_, ?_, ?_, ?_⟩
      · rw [hlen1]; exact Nat.le_succ_of_le hInv.hlen
      · intro i hi
        rw [hh1 i (Nat.lt_of_lt_of_le hi hInv.hlen)]
        exact hInv.hfrozen i hi
      · intro d2 e2 h2
        by_cases hx : d2 = d
        · subst hx
          rw [hc1d] at h2
          cases h2
          refine ⟨rfl, hInv.hlen, ?_⟩
          show st.heap.length < st1.heap.length
          omega
        · rw [hc1 d2 hx] at h2
          obtain ⟨ha, hb, hc⟩ := hInv.hrefs d2 e2 h2
          exact ⟨ha, hb, by omega⟩
      · intro d1 d2 e1 e2 h1 h2 hne
        by_cases hx1 : d1 = d
        · subst hx1
          rw [hc1d] at h1
          cases h1
          rw [hc1 d2 (Ne.symm hne)] at h2
          have := (hInv.hrefs d2 e2 h2).2.2
          show st.heap.length ≠ e2.ref
          omega
        · rw [hc1 d1 hx1] at h1
          by_cases hx2 : d2 = d
          · subst hx2
            rw [hc1d] at h2
            cases h2
            have := (hInv.hrefs d1 e1 h1).2.2
            show e1.ref ≠ st.heap.length
            omega
          · rw [hc1 d2 hx2] at h2
            exact hInv.hinj d1 d2 e1 e2 h1 h2 hne
    obtain ⟨st2, res, hrun, hInv2, hlen2, hhfr, hcfr, hper⟩ :=
      ih hndr st1 hInv1 (fun x hx => hex x (List.mem_cons_of_mem d hx))
    refine ⟨st2, (expNew.detector, expNew.image) :: res, ?_, hInv2, ?_, ?_, ?_, ?_⟩
    · simp only [poolMapM_cons, hstep', hrun]
    · omega
    · intro i hi
      rw [hhfr i (by omega), hh1 i hi]
    · intro x hx
      have hx1 : x ≠ d := fun h => hx (h ▸ List.mem_cons_self d rest)
      have hx2 : x ∉ rest := fun h => hx (List.mem_cons_of_mem d h)
      rw [hcfr x hx2, hc1 x hx1]
    · intro d0 hd0
      rcases List.mem_cons.1 hd0 with hd0 | hd0
      · subst hd0
        refine ⟨st.heap.length, ?_, ?_⟩
        · rw [hcfr d0 hdrest, hc1d]
        · rw [hhfr st.heap.length (by omega)]
          exact hh1d
      · exact hper d0 hd0

/-! ## Equations and inversions for the individual stages -/

/-- `accumulateModel` on a matching cache. -/
theorem accumulateModel_ok {exp : Exposure} {c : UnitCache} {data : ModelStruct}
    (hc : c.dataId = data.dataId) :
    accumulateModel exp c data = .ok (exp, c, data.bgModel.addCcd exp) := by
  simp [accumulateModel, hc]

/-- Inversion of a successful `accumulateModel`. -/
theorem accumulateModel_ok_inv {exp : Exposure} {c : UnitCache} {data : ModelStruct}
    {exp2 : Exposure} {c2 : UnitCache} {a : FocalPlaneBackground}
    (h : accumulateModel exp c data = .ok (exp2, c2, a)) :
    exp2 = exp ∧ c2 = c ∧ a = data.bgModel.addCcd exp := by
  simp only [accumulateModel] at h
  split at h
  · simp only [Except.ok.injEq, Prod.mk.injEq] at h
    exact ⟨h.1.symm, h.2.1.symm, h.2.2.symm⟩
  · exact Except.noConfusion h

/-- `subtractModel` on a matching cache. -/
theorem subtractModel_ok {m : FocalPlaneBackground} {exp : Exposure} {c : UnitCache}
    {dataId : DataId} (hc : c.dataId = dataId) :
    subtractModel m exp c dataId = .ok
      ({ exp with image := exp.image - m.toCcdBackground exp.detector },
       { c with bgList := c.bgList ++ [m.toCcdBackground exp.detector] },
       (exp.detector, exp.image - m.toCcdBackground exp.detector)) := by
  simp [subtractModel, hc]

/-- Inversion of a successful `subtractModel`. -/
theorem subtractModel_ok_inv {m : FocalPlaneBackground} {exp : Exposure} {c : UnitCache}
    {dataId : DataId} {exp2 : Exposure} {c2 : UnitCache} {a : Nat × Int}
    (h : subtractModel m exp c dataId = .ok (exp2, c2, a)) :
    exp2 = { exp with image := exp.image - m.toCcdBackground exp.detector } ∧
    c2 = { c with bgList := c.bgList ++ [m.toCcdBackground exp.detector] } := by
  simp only [subtractModel] at h
  split at h
  · simp only [Except.ok.injEq, Prod.mk.injEq] at h
    exact ⟨h.1.symm, h.2.1.symm⟩
  · exact Except.noConfusion h

/-- `measureSkyFrame` on a matching cache. -/
theorem measureSkyFrame_ok {butler : Butler} {exp : Exposure} {c : UnitCache}
    {dataId : DataId} (hc : c.dataId = dataId) :
    measureSkyFrame butler exp c dataId = .ok
      (exp, { c with sky := some (getSkyData butler dataId) },
       measureScale exp.image (getSkyData butler dataId)) := by
  simp [measureSkyFrame, hc]

/-- Inversion of a successful `measureSkyFrame`. -/
theorem measureSkyFrame_ok_inv {butler : Butler} {exp : Exposure} {c : UnitCache}
    {dataId : DataId} {exp2 : Exposure} {c2 : UnitCache} {a : Int}
    (h : measureSkyFrame butler exp c dataId = .ok (exp2, c2, a)) :
    exp2 = exp ∧ c2 = { c with sky := some (getSkyData butler dataId) } := by
  simp only [measureSkyFrame] at h
  split at h
  · simp only [Except.ok.injEq, Prod.mk.injEq] at h
    exact ⟨h.1.symm, h.2.1.symm⟩
  · exact Except.noConfusion h

/-- `subtractSkyFrame` on a matching cache with a measured sky. -/
theorem subtractSkyFrame_ok {exp : Exposure} {c : UnitCache} {dataId : DataId}
    {scale sky : Int} (hc : c.dataId = dataId) (hs : c.sky = some sky) :
    subtractSkyFrame exp c dataId scale = .ok
      ({ exp with image := exp.image - scale * sky },
       { c with bgList := c.bgList ++ [scale * sky] },
       (exp.detector, exp.image - scale * sky)) := by
  simp [subtractSkyFrame, hc, hs]

/-- Inversion of a successful `subtractSkyFrame`. -/
theorem subtractSkyFrame_ok_inv {exp : Exposure} {c : UnitCache} {dataId : DataId}
    {scale : Int} {exp2 : Exposure} {c2 : UnitCache} {a : Nat × Int}
    (h : subtractSkyFrame exp c dataId scale = .ok (exp2, c2, a)) :
    ∃ sky, c.sky = some sky ∧
      exp2 = { exp with image := exp.image - scale * sky } ∧
      c2 = { c with bgList := c.bgList ++ [scale * sky] } := by
  simp only [subtractSkyFrame] at h
  split at h
  · split at h
    · exact Except.noConfusion h
    · next sky hsky =>
      simp only [Except.ok.injEq, Prod.mk.injEq] at h
      exact ⟨sky, hsky, h.1.symm, h.2.1.symm⟩
  · exact Except.noConfusion h

/-- Inversion of the (always successful) `write` stage. -/
theorem write_ok_inv {exp : Exposure} {c : UnitCache} {dataId : DataId}
    {exp2 : Exposure} {c2 : UnitCache} {a : DataId × List Int}
    (h : write exp c dataId = .ok (exp2, c2, a)) :
    exp2 = exp ∧ c2 = c ∧ a = (dataId, c.bgList) := by
  simp only [write, Except.ok.injEq, Prod.mk.injEq] at h
  exact ⟨h.1.symm, h.2.1.symm, h.2.2.symm⟩

/-! ## Characterization of the full background-model phase -/

/-- One full `focalPlaneBackground` correction phase on a job whose units all
have live cache slots: the phase succeeds, keeps the invariant, does not
touch other units, and, for every unit, appends exactly one background
component to the unit's background list while subtracting exactly that
component from the unit's cached image. -/
theorem focalPlaneBackground_char (config : FocalPlaneBackgroundConfig)
    (camera : Nat) (heap₀ : List Exposure) (ids : List DataId) (hnd : ids.Nodup)
    (st : PoolState) (hInv : Inv heap₀ ids st) :
    ∃ st2 res, focalPlaneBackground config camera st ids = .ok (st2, res) ∧
      Inv heap₀ ids st2 ∧
      st2.heap.length = st.heap.length ∧
      (∀ x, x ∉ ids → st2.caches x = st.caches x) ∧
      (∀ i, (∀ d e, d ∈ ids → st.caches d = some e → e.ref ≠ i) →
        st2.heap[i]? = st.heap[i]?) ∧
      (∀ d, d ∈ ids → ∀ e exp, st.caches d = some e → st.heap[e.ref]? = some exp →
        ∃ a c9, st2.caches d = some ⟨c9, e.ref⟩ ∧ c9.dataId = e.cache.dataId ∧
          c9.bgList = e.cache.bgList ++ [a] ∧
          st2.heap[e.ref]? = some { exp with image := exp.image - a }) := by
  have hid_acc : ∀ exp c d exp2 c2 a,
      accumulateModel exp c
          ⟨d, (FocalPlaneBackground.fromCamera config camera).clone⟩ = .ok (exp2, c2, a) →
      c2.dataId = c.dataId := by
    intro exp c d exp2 c2 a h
    rw [(accumulateModel_ok_inv h).2.1]
  have hok_acc : ∀ d, d ∈ ids → ∀ e exp, st.caches d = some e →
      st.heap[e.ref]? = some exp →
      ∃ r, accumulateModel exp e.cache
        ⟨d, (FocalPlaneBackground.fromCamera config camera).clone⟩ = .ok r := by
    intro d hd e exp he _
    exact ⟨_, accumulateModel_ok (hInv.hrefs d e he).1⟩
  obtain ⟨st1, frags, hrun1, hInv1, hlen1, _, hcfr1, hhfr1, hper1, _⟩ :=
    poolMapM_runOnCache_char
      (fun exp c d => accumulateModel exp c
        ⟨d, (FocalPlaneBackground.fromCamera config camera).clone⟩)
      hid_acc heap₀ ids ids (fun d hd => hd) hnd st hInv hok_acc
  have hid_sub : ∀ exp c d exp2 c2 a,
      subtractModel
          (frags.foldl (fun m p => m.merge p)
            (FocalPlaneBackground.fromCamera config camera)) exp c d = .ok (exp2, c2, a) →
      c2.dataId = c.dataId := by
    intro exp c d exp2 c2 a h
    rw [(subtractModel_ok_inv h).2]
  have hok_sub : ∀ d, d ∈ ids → ∀ e exp, st1.caches d = some e →
      st1.heap[e.ref]? = some exp →
      ∃ r, subtractModel
        (frags.foldl (fun m p => m.merge p)
          (FocalPlaneBackground.fromCamera config camera)) exp e.cache d = .ok r := by
    intro d hd e exp he _
    exact ⟨_, subtractModel_ok (hInv1.hrefs d e he).1⟩
  obtain ⟨st2, res, hrun2, hInv2, hlen2, _, hcfr2, hhfr2, hper2, _⟩ :=
    poolMapM_runOnCache_char
      (subtractModel
        (frags.foldl (fun m p => m.merge p)
          (FocalPlaneBackground.fromCamera config camera)))
      hid_sub heap₀ ids ids (fun d hd => hd) hnd st1 hInv1 hok_sub
  have hslot : ∀ d, d ∈ ids → ∃ e, st.caches d = some e := by
    intro d hd
    cases h : st.caches d with
    | none => exact absurd h (hInv.hslots d hd)
    | some e => exact ⟨e, rfl⟩
  have htrans : ∀ i, (∀ d e, d ∈ ids → st.caches d = some e → e.ref ≠ i) →
      (∀ d e, d ∈ ids → st1.caches d = some e → e.ref ≠ i) := by
    intro i hi d e1 hd h1
    obtain ⟨e, he⟩ := hslot d hd
    have hhi := (hInv.hrefs d e he).2.2
    obtain ⟨exp2, c2, a, _, hca, _, _⟩ :=
      hper1 d hd e st.heap[e.ref] he (List.getElem?_eq_getElem hhi)
    rw [hca] at h1
    cases h1
    exact hi d e hd he
  refine ⟨st2, res, ?_, hInv2, ?_, ?_, ?_, ?_⟩
  · simp only [focalPlaneBackground, hrun1, hrun2]
  · rw [hlen2, hlen1]
  · intro x hx
    rw [hcfr2 x hx, hcfr1 x hx]
  · intro i hi
    rw [hhfr2 i (htrans i hi), hhfr1 i hi]
  · intro d hd e exp he hexp
    obtain ⟨exp2, c2, a, hf, hca1, hhe1, _⟩ := hper1 d hd e exp he hexp
    obtain ⟨hexp2, hc2, _⟩ := accumulateModel_ok_inv hf
    rw [hexp2] at hhe1
    rw [hc2] at hca1
    obtain ⟨exp3, c3, a3, hf3, hca3, hhe3, _⟩ := hper2 d hd ⟨e.cache, e.ref⟩ exp hca1 hhe1
    obtain ⟨hexp3, hc3⟩ := subtractModel_ok_inv hf3
    rw [hexp3] at hhe3
    rw [hc3] at hca3
    exact ⟨_, _, hca3, rfl, rfl, hhe3⟩

/-- One full sky-frame phase (measure, solve, subtract) on a job whose units
all have live cache slots: the phase succeeds, keeps the invariant, does not
touch other units, and, for every unit, appends exactly one scaled-reference
component to the unit's background list while subtracting exactly that
component from the unit's cached image. -/
theorem skyPhase_char (butler : Butler) (heap₀ : List Exposure) (ids : List DataId)
    (hnd : ids.Nodup) (st : PoolState) (hInv : Inv heap₀ ids st) :
    ∃ st2 res, skyPhase butler st ids = .ok (st2, res) ∧
      Inv heap₀ ids st2 ∧
      st2.heap.length = st.heap.length ∧
      (∀ x, x ∉ ids → st2.caches x = st.caches x) ∧
      (∀ i, (∀ d e, d ∈ ids → st.caches d = some e → e.ref ≠ i) →
        st2.heap[i]? = st.heap[i]?) ∧
      (∀ d, d ∈ ids → ∀ e exp, st.caches d = some e → st.heap[e.ref]? = some exp →
        ∃ a c9, st2.caches d = some ⟨c9, e.ref⟩ ∧ c9.dataId = e.cache.dataId ∧
          c9.bgList = e.cache.bgList ++ [a] ∧
          st2.heap[e.ref]? = some { exp with image := exp.image - a }) := by
  have hid_meas : ∀ exp c d exp2 c2 a,
      measureSkyFrame butler exp c d = .ok (exp2, c2, a) → c2.dataId = c.dataId := by
    intro exp c d exp2 c2 a h
    rw [(measureSkyFrame_ok_inv h).2]
  have hok_meas : ∀ d, d ∈ ids → ∀ e exp, st.caches d = some e →
      st.heap[e.ref]? = some exp → ∃ r, measureSkyFrame butler exp e.cache d = .ok r := by
    intro d hd e exp he _
    exact ⟨_, measureSkyFrame_ok (hInv.hrefs d e he).1⟩
  obtain ⟨st1, meas, hrun1, hInv1, hlen1, _, hcfr1, hhfr1, hper1, _⟩ :=
    poolMapM_runOnCache_char (measureSkyFrame butler) hid_meas heap₀ ids ids
      (fun d hd => hd) hnd st hInv hok_meas
  have hslot : ∀ d, d ∈ ids → ∃ e, st.caches d = some e := by
    intro d hd
    cases h : st.caches d with
    | none => exact absurd h (hInv.hslots d hd)
    | some e => exact ⟨e, rfl⟩
  have hslot1 : ∀ d e1, d ∈ ids → st1.caches d = some e1 →
      ∃ sky, e1.cache.sky = some sky := by
    intro d e1 hd h1
    obtain ⟨e, he⟩ := hslot d hd
    have hhi := (hInv.hrefs d e he).2.2
    obtain ⟨exp2, c2, a, hf, hca, _, _⟩ :=
      hper1 d hd e st.heap[e.ref] he (List.getElem?_eq_getElem hhi)
    rw [hca] at h1
    cases h1
    obtain ⟨_, hc2⟩ := measureSkyFrame_ok_inv hf
    rw [hc2]
    exact ⟨_, rfl⟩
  have hid_sub : ∀ exp c d exp2 c2 a,
      subtractSkyFrame exp c d (solveScales meas) = .ok (exp2, c2, a) →
      c2.dataId = c.dataId := by
    intro exp c d exp2 c2 a h
    obtain ⟨sky, _, _, hc2⟩ := subtractSkyFrame_ok_inv h
    rw [hc2]
  have hok_sub : ∀ d, d ∈ ids → ∀ e exp, st1.caches d = some e →
      st1.heap[e.ref]? = some exp →
      ∃ r, subtractSkyFrame exp e.cache d (solveScales meas) = .ok r := by
    intro d hd e exp he _
    obtain ⟨sky, hsky⟩ := hslot1 d e hd he
    exact ⟨_, subtractSkyFrame_ok (hInv1.hrefs d e he).1 hsky⟩
  obtain ⟨st2, res, hrun2, hInv2, hlen2, _, hcfr2, hhfr2, hper2, _⟩ :=
    poolMapM_runOnCache_char
      (fun exp c d => subtractSkyFrame exp c d (solveScales meas))
      hid_sub heap₀ ids ids (fun d hd => hd) hnd st1 hInv1 hok_sub
  have htrans : ∀ i, (∀ d e, d ∈ ids → st.caches d = some e → e.ref ≠ i) →
      (∀ d e, d ∈ ids → st1.caches d = some e → e.ref ≠ i) := by
    intro i hi d e1 hd h1
    obtain ⟨e, he⟩ := hslot d hd
    have hhi := (hInv.hrefs d e he).2.2
    obtain ⟨exp2, c2, a, _, hca, _, _⟩ :=
      hper1 d hd e st.heap[e.ref] he (List.getElem?_eq_getElem hhi)
    rw [hca] at h1
    cases h1
    exact hi d e hd he
  refine ⟨st2, res, ?_, hInv2, ?_, ?_, ?_, ?_⟩
  · simp only [skyPhase, hrun1, hrun2]
  · rw [hlen2, hlen1]
  · intro x hx
    rw [hcfr2 x hx, hcfr1 x hx]
  · intro i hi
    rw [hhfr2 i (htrans i hi), hhfr1 i hi]
  · intro d hd e exp he hexp
    obtain ⟨exp2, c2, a, hf, hca1, hhe1, _⟩ := hper1 d hd e exp he hexp
    obtain ⟨hexp2, hc2⟩ := measureSkyFrame_ok_inv hf
    rw [hexp2] at hhe1
    rw [hc2] at hca1
    obtain ⟨exp3, c3, a3, hf3, hca3, hhe3, _⟩ :=
      hper2 d hd ⟨{ e.cache with sky := some (getSkyData butler d) }, e.ref⟩ exp hca1 hhe1
    obtain ⟨sky, hsky, hexp3, hc3⟩ := subtractSkyFrame_ok_inv hf3
    rw [hexp3] at hhe3
    rw [hc3] at hca3
    exact ⟨solveScales meas * sky, _, hca3, rfl, rfl, hhe3⟩

/-! ## Config-gated phases -/

/-- A config-gated background-model phase: when enabled it behaves as
`focalPlaneBackground_char` (one appended component per unit); when disabled
it is the identity and appends nothing. -/
theorem optFpb_char (b : Bool) (config : FocalPlaneBackgroundConfig) (camera : Nat)
    (heap₀ : List Exposure) (ids : List DataId) (hnd : ids.Nodup)
    (st : PoolState) (hInv : Inv heap₀ ids st) :
    ∃ st2 res, (if b = true then focalPlaneBackground config camera st ids
        else Except.ok (st, [])) = .ok (st2, res) ∧
      Inv heap₀ ids st2 ∧
      st2.heap.length = st.heap.length ∧
      (∀ x, x ∉ ids → st2.caches x = st.caches x) ∧
      (∀ i, (∀ d e, d ∈ ids → st.caches d = some e → e.ref ≠ i) →
        st2.heap[i]? = st.heap[i]?) ∧
      (∀ d, d ∈ ids → ∀ e exp, st.caches d = some e → st.heap[e.ref]? = some exp →
        ∃ la c9, st2.caches d = some ⟨c9, e.ref⟩ ∧ c9.dataId = e.cache.dataId ∧
          c9.bgList = e.cache.bgList ++ la ∧
          st2.heap[e.ref]? = some { exp with image := exp.image - la.sum } ∧
          (b = true → ∃ a, la = [a]) ∧ (b = false → la = [])) := by
  cases b
  · refine ⟨st, [], by simp, hInv, rfl, fun x _ => rfl, fun i _ => rfl, ?_⟩
    intro d hd e exp he hexp
    refine ⟨[], e.cache, he, rfl, by simp, ?_, fun h => Bool.noConfusion h, fun _ => rfl⟩
    have hrec : ({ exp with image := exp.image - ([] : List Int).sum } : Exposure) = exp := by
      simp
    rw [hrec]
    exact hexp
  · obtain ⟨st2, res, hrun, hInv2, hlen, hcfr, hhfr, hper⟩ :=
      focalPlaneBackground_char config camera heap₀ ids hnd st hInv
    refine ⟨st2, res, by simpa using hrun, hInv2, hlen, hcfr, hhfr, ?_⟩
    intro d hd e exp he hexp
    obtain ⟨a, c9, hca, hdid, hbg, hhe⟩ := hper d hd e exp he hexp
    refine ⟨[a], c9, hca, hdid, hbg, ?_, fun _ => ⟨a, rfl⟩, fun h => Bool.noConfusion h⟩
    have hsum : (([a] : List Int)).sum = a := by simp
    rw [hsum]
    exact hhe

/-- A config-gated sky-frame phase: when enabled it behaves as
`skyPhase_char` (one appended component per unit); when disabled it is the
identity and appends nothing. -/
theorem optSky_char (b : Bool) (butler : Butler)
    (heap₀ : List Exposure) (ids : List DataId) (hnd : ids.Nodup)
    (st : PoolState) (hInv : Inv heap₀ ids st) :
    ∃ st2 res, (if b = true then skyPhase butler st ids
        else Except.ok (st, [])) = .ok (st2, res) ∧
      Inv heap₀ ids st2 ∧
      st2.heap.length = st.heap.length ∧
      (∀ x, x ∉ ids → st2.caches x = st.caches x) ∧
      (∀ i, (∀ d e, d ∈ ids → st.caches d = some e → e.ref ≠ i) →
        st2.heap[i]? = st.heap[i]?) ∧
      (∀ d, d ∈ ids → ∀ e exp, st.caches d = some e → st.heap[e.ref]? = some exp →
        ∃ la c9, st2.caches d = some ⟨c9, e.ref⟩ ∧ c9.dataId = e.cache.dataId ∧
          c9.bgList = e.cache.bgList ++ la ∧
          st2.heap[e.ref]? = some { exp with image := exp.image - la.sum } ∧
          (b = true → ∃ a, la = [a]) ∧ (b = false → la = [])) := by
  cases b
  · refine ⟨st, [], by simp, hInv, rfl, fun x _ => rfl, fun i _ => rfl, ?_⟩
    intro d hd e exp he hexp
    refine ⟨[], e.cache, he, rfl, by simp, ?_, fun h => Bool.noConfusion h, fun _ => rfl⟩
    have hrec : ({ exp with image := exp.image - ([] : List Int).sum } : Exposure) = exp := by
      simp
    rw [hrec]
    exact hexp
  · obtain ⟨st2, res, hrun, hInv2, hlen, hcfr, hhfr, hper⟩ :=
      skyPhase_char butler heap₀ ids hnd st hInv
    refine ⟨st2, res, by simpa using hrun, hInv2, hlen, hcfr, hhfr, ?_⟩
    intro d hd e exp he hexp
    obtain ⟨a, c9, hca, hdid, hbg, hhe⟩ := hper d hd e exp he hexp
    refine ⟨[a], c9, hca, hdid, hbg, ?_, fun _ => ⟨a, rfl⟩, fun h => Bool.noConfusion h⟩
    have hsum : (([a] : List Int)).sum = a := by simp
    rw [hsum]
    exact hhe

/-! ## The master characterization of `runDataRef` -/

/-- Full characterization of a `runDataRef` job on a well-formed storage
heap (every stored exposure reference in range) and a duplicate-free unit
list: the job succeeds; the heap cells present before the job (in
particular every stored exposure) are bit-for-bit unchanged; every cache
references only exposures allocated by this job (clones); the `write` stage
persists one background list per unit; and for every unit the final
background list is exactly the negated restore history followed by one
component per enabled phase, in phase order, with the final cached image
equal to the restored image minus the sum of the phase components. -/
theorem runDataRef_spec (config : SkyCorrectionConfig) (butler : Butler)
    (camera : Nat) (subItems : List DataId) (st₀ : PoolState)
    (hbw : ∀ t d r, butler.calexpRef t d = some r → r < st₀.heap.length)
    (hnd : (jobDataIdList config butler subItems).Nodup) :
    ∃ res : JobResult, runDataRef config butler camera subItems st₀ = .ok res ∧
      (∀ i, i < st₀.heap.length → res.state.heap[i]? = st₀.heap[i]?) ∧
      (∀ d e, res.state.caches d = some e → st₀.heap.length ≤ e.ref) ∧
      res.skyCorrPut.length = (jobDataIdList config butler subItems).length ∧
      (∀ d, d ∈ jobDataIdList config butler subItems →
        ∃ e la ls lb exp,
          res.state.caches d = some e ∧
          e.cache.dataId = d ∧
          e.cache.bgList =
            (butler.calexpBackground d).map (fun c => -c) ++ (la ++ ls ++ lb) ∧
          (config.doBgModel = true → ∃ a, la = [a]) ∧
          (config.doBgModel = false → la = []) ∧
          (config.doSky = true → ∃ s, ls = [s]) ∧
          (config.doSky = false → ls = []) ∧
          (config.doBgModel2 = true → ∃ bb, lb = [bb]) ∧
          (config.doBgModel2 = false → lb = []) ∧
          res.state.heap[e.ref]? = some exp ∧
          exp.image =
            (loadedExp config butler st₀.heap d).image - (la ++ ls ++ lb).sum ∧
          (d, e.cache.bgList) ∈ res.skyCorrPut) ∧
      (∀ p, p ∈ res.skyCorrPut → ∃ d e,
        d ∈ jobDataIdList config butler subItems ∧
        res.state.caches d = some e ∧ p = (d, e.cache.bgList)) := by
  have hLoadInv : LoadInv st₀.heap { heap := st₀.heap, caches := fun _ => none } :=
    ⟨le_rfl, fun i _ => rfl, fun d e h => Option.noConfusion h,
     fun d1 d2 e1 e2 h1 _ _ => Option.noConfusion h1⟩
  have hex : ∀ d, d ∈ jobDataIdList config butler subItems →
      ∃ r, butler.calexpRef (calexpType config) d = some r ∧ r < st₀.heap.length := by
    intro d hd
    have hs : (butler.calexpRef (calexpType config) d).isSome = true :=
      (List.mem_filter.1 hd).2
    obtain ⟨r, hr⟩ := Option.isSome_iff_exists.1 hs
    exact ⟨r, hr, hbw (calexpType config) d r hr⟩
  obtain ⟨st1, res1, hrun1, hInvL, _, _, _, hslots1⟩ :=
    poolMapM_loadImage_char config butler st₀.heap
      (jobDataIdList config butler subItems) hnd
      { heap := st₀.heap, caches := fun _ => none } hLoadInv hex
  have hInv1 : Inv st₀.heap (jobDataIdList config butler subItems) st1 := by
    refine ⟨hInvL, ?_⟩
    intro d hd
    obtain ⟨ref, hca, _⟩ := hslots1 d hd
    rw [hca]
    exact Option.some_ne_none _
  obtain ⟨st2, res2, hrun2, hInv2, _, _, _, hper2⟩ :=
    optFpb_char config.doBgModel config.bgModel camera st₀.heap
      (jobDataIdList config butler subItems) hnd st1 hInv1
  obtain ⟨st3, res3, hrun3, hInv3, _, _, _, hper3⟩ :=
    optSky_char config.doSky butler st₀.heap
      (jobDataIdList config butler subItems) hnd st2 hInv2
  obtain ⟨st4, res4, hrun4, hInv4, _, _, _, hper4⟩ :=
    optFpb_char config.doBgModel2 config.bgModel2 camera st₀.heap
      (jobDataIdList config butler subItems) hnd st3 hInv3
  have hid_wr : ∀ exp c d exp2 c2 a,
      write exp c d = .ok (exp2, c2, a) → c2.dataId = c.dataId := by
    intro exp c d exp2 c2 a h
    rw [(write_ok_inv h).2.1]
  have hok_wr : ∀ d, d ∈ jobDataIdList config butler subItems → ∀ e exp,
      st4.caches d = some e → st4.heap[e.ref]? = some exp →
      ∃ r, write exp e.cache d = .ok r :=
    fun d _ e exp _ _ => ⟨_, rfl⟩
  obtain ⟨st5, puts, hrun5, hInv5, _, hputlen, _, _, hper5, hprov5⟩ :=
    poolMapM_runOnCache_char write hid_wr st₀.heap
      (jobDataIdList config butler subItems) (jobDataIdList config butler subItems)
      (fun d hd => hd) hnd st4 hInv4 hok_wr
  refine ⟨⟨st5, puts⟩, ?_, hInv5.hfrozen, ?_, hputlen, ?_, ?_⟩
  · show runDataRef config butler camera subItems st₀ = .ok ⟨st5, puts⟩
    simp only [runDataRef, hrun1, hrun2, hrun3, hrun4, hrun5]
  · intro d e h
    exact (hInv5.hrefs d e h).2.1
  · intro d hd
    obtain ⟨ref, hca1, hhe1⟩ := hslots1 d hd
    obtain ⟨la, cA, hcaA, hdidA, hbgA, hheA, htA, hfA⟩ :=
      hper2 d hd ⟨loadCache butler d, ref⟩ (loadedExp config butler st₀.heap d) hca1 hhe1
    obtain ⟨ls, cS, hcaS, hdidS, hbgS, hheS, htS, hfS⟩ :=
      hper3 d hd ⟨cA, ref⟩ _ hcaA hheA
    obtain ⟨lb, cB, hcaB, hdidB, hbgB, hheB, htB, hfB⟩ :=
      hper4 d hd ⟨cS, ref⟩ _ hcaS hheS
    obtain ⟨exp5, c5, a5, hf5, hca5, hhe5, hmem5⟩ :=
      hper5 d hd ⟨cB, ref⟩ _ hcaB hheB
    obtain ⟨hexp5, hc5, ha5⟩ := write_ok_inv hf5
    rw [hexp5] at hhe5
    rw [hc5] at hca5
    rw [ha5] at hmem5
    refine ⟨⟨cB, ref⟩, la, ls, lb, _, hca5, ?_, ?_, htA, hfA, htS, hfS, htB, hfB,
      hhe5, ?_, hmem5⟩
    · show cB.dataId = d
      rw [hdidB, hdidS, hdidA]
      rfl
    · show cB.bgList = (butler.calexpBackground d).map (fun c => -c) ++ (la ++ ls ++ lb)
      rw [hbgB, hbgS, hbgA]
      simp [loadCache, List.append_assoc]
    · show ((loadedExp config butler st₀.heap d).image - la.sum - ls.sum) - lb.sum
        = (loadedExp config butler st₀.heap d).image - (la ++ ls ++ lb).sum
      simp only [List.sum_append]
      ring
  · intro p hp
    obtain ⟨d, e, exp, exp2, c2, hd, hca, hhe, hf⟩ := hprov5 p hp
    obtain ⟨exp5', c5', a5', hf5, hca5, _, _⟩ := hper5 d hd e exp hca hhe
    obtain ⟨hexp5, hc5, ha5⟩ := write_ok_inv hf5
    rw [hc5] at hca5
    exact ⟨d, ⟨e.cache, e.ref⟩, hd, hca5, (write_ok_inv hf).2.2⟩

/-! ## Claim theorems derived from the master characterization -/

/-- C1: for every configuration of the phase toggles (`doBgModel`, `doSky`,
`doBgModel2`), after `runDataRef` completes each unit's background list is
exactly the negated restore history appended by `loadImage` followed by one
component per enabled subtraction stage, in application order (model phase A,
sky frame, model phase B), and nothing else; a skipped phase contributes no
entry; and the unit's cached image equals the restored image minus exactly
the sum of those phase components (the components actually applied). -/
theorem runDataRef_bgList_components (config : SkyCorrectionConfig)
    (butler : Butler) (camera : Nat) (subItems : List DataId) (st₀ : PoolState)
    (hbw : ∀ t d r, butler.calexpRef t d = some r → r < st₀.heap.length)
    (hnd : (jobDataIdList config butler subItems).Nodup) :
    ∃ res : JobResult, runDataRef config butler camera subItems st₀ = .ok res ∧
      ∀ d, d ∈ jobDataIdList config butler subItems →
        ∃ e la ls lb exp,
          res.state.caches d = some e ∧
          e.cache.bgList =
            (butler.calexpBackground d).map (fun c => -c) ++ (la ++ ls ++ lb) ∧
          (config.doBgModel = true → ∃ a, la = [a]) ∧
          (config.doBgModel = false → la = []) ∧
          (config.doSky = true → ∃ s, ls = [s]) ∧
          (config.doSky = false → ls = []) ∧
          (config.doBgModel2 = true → ∃ bb, lb = [bb]) ∧
          (config.doBgModel2 = false → lb = []) ∧
          res.state.heap[e.ref]? = some exp ∧
          exp.image =
            (loadedExp config butler st₀.heap d).image - (la ++ ls ++ lb).sum := by
  obtain ⟨res, hrun, _, _, _, hper, _⟩ :=
    runDataRef_spec config butler camera subItems st₀ hbw hnd
  refine ⟨res, hrun, ?_⟩
  intro d hd
  obtain ⟨e, la, ls, lb, exp, h1, _, h3, h4, h5, h6, h7, h8, h9, h10, h11, _⟩ :=
    hper d hd
  exact ⟨e, la, ls, lb, exp, h1, h3, h4, h5, h6, h7, h8, h9, h10, h11⟩

/-- C5 (amended): for every unit, *adding* the sum of the images of the
entries of the final background list to the post-pipeline cached image
reproduces the originally stored (processed) image exactly — equivalently,
the stored image minus the summed background list equals the final image.
(The claim's direction, subtracting the sum from the post-pipeline image,
is refuted by `bgList_subtract_counterexample`.) -/
theorem bgList_restores_stored_image (config : SkyCorrectionConfig)
    (butler : Butler) (camera : Nat) (subItems : List DataId) (st₀ : PoolState)
    (hbw : ∀ t d r, butler.calexpRef t d = some r → r < st₀.heap.length)
    (hnd : (jobDataIdList config butler subItems).Nodup) :
    ∃ res : JobResult, runDataRef config butler camera subItems st₀ = .ok res ∧
      ∀ d, d ∈ jobDataIdList config butler subItems →
        ∃ e exp, res.state.caches d = some e ∧
          res.state.heap[e.ref]? = some exp ∧
          exp.image + e.cache.bgList.sum =
            (storedExp config butler st₀.heap d).image := by
  obtain ⟨res, hrun, _, _, _, hper, _⟩ :=
    runDataRef_spec config butler camera subItems st₀ hbw hnd
  refine ⟨res, hrun, ?_⟩
  intro d hd
  obtain ⟨e, la, ls, lb, exp, h1, _, hbg, _, _, _, _, _, _, hhe, himg, _⟩ :=
    hper d hd
  refine ⟨e, exp, h1, hhe, ?_⟩
  rw [himg, hbg]
  simp only [List.sum_append, sum_map_neg, loadedExp]
  ring

/-- C9: `loadImage` clones the stored exposure, so the whole pipeline
mutates only heap cells allocated by this job: every heap cell that existed
before the job — in particular every exposure held by the storage access
layer — is unchanged after `runDataRef`, and every worker cache references
only a freshly allocated clone. -/
theorem loadImage_clone_isolation (config : SkyCorrectionConfig)
    (butler : Butler) (camera : Nat) (subItems : List DataId) (st₀ : PoolState)
    (hbw : ∀ t d r, butler.calexpRef t d = some r → r < st₀.heap.length)
    (hnd : (jobDataIdList config butler subItems).Nodup) :
    ∃ res : JobResult, runDataRef config butler camera subItems st₀ = .ok res ∧
      (∀ i, i < st₀.heap.length → res.state.heap[i]? = st₀.heap[i]?) ∧
      (∀ t d r, butler.calexpRef t d = some r →
        res.state.heap[r]? = st₀.heap[r]?) ∧
      (∀ d e, res.state.caches d = some e → st₀.heap.length ≤ e.ref) := by
  obtain ⟨res, hrun, hfroz, hrefs, _, _, _⟩ :=
    runDataRef_spec config butler camera subItems st₀ hbw hnd
  exact ⟨res, hrun, hfroz, fun t d r h => hfroz r (hbw t d r h), hrefs⟩

/-- C6: with the first background-model phase enabled and the sky-frame and
second background-model phases disabled, a job of 4 units (each with a
single-component restore history) persists, for every unit, a background
list of exactly 2 entries: the negated restore component followed by the
phase-A projected model component. -/
theorem endToEnd_phaseA_two_components (config : SkyCorrectionConfig)
    (butler : Butler) (camera : Nat) (subItems : List DataId) (st₀ : PoolState)
    (hA : config.doBgModel = true) (hS : config.doSky = false)
    (hB : config.doBgModel2 = false)
    (hbw : ∀ t d r, butler.calexpRef t d = some r → r < st₀.heap.length)
    (hnd : (jobDataIdList config butler subItems).Nodup)
    (hcount : (jobDataIdList config butler subItems).length = 4)
    (hhist : ∀ d, d ∈ jobDataIdList config butler subItems →
      ∃ c0, butler.calexpBackground d = [c0]) :
    ∃ res : JobResult, runDataRef config butler camera subItems st₀ = .ok res ∧
      res.skyCorrPut.length = 4 ∧
      ∀ p, p ∈ res.skyCorrPut → ∃ c0 a,
        butler.calexpBackground p.1 = [c0] ∧ p.2 = [-c0, a] := by
  obtain ⟨res, hrun, _, _, hlen, hper, hprov⟩ :=
    runDataRef_spec config butler camera subItems st₀ hbw hnd
  refine ⟨res, hrun, by rw [hlen, hcount], ?_⟩
  intro p hp
  obtain ⟨d, e, hd, hca, hpe⟩ := hprov p hp
  obtain ⟨e', la, ls, lb, exp, hca', _, hbg, htA, _, _, hfS, _, hfB, _, _, _⟩ :=
    hper d hd
  rw [hca] at hca'
  injection hca' with hee
  obtain ⟨c0, hc0⟩ := hhist d hd
  obtain ⟨a, hla⟩ := htA hA
  have hls := hfS hS
  have hlb := hfB hB
  refine ⟨c0, a, ?_, ?_⟩
  · rw [hpe]
    exact hc0
  · rw [hpe]
    show e.cache.bgList = [-c0, a]
    rw [← hee] at hbg
    rw [hbg, hc0, hla, hls, hlb]
    simp

/-! ## Concrete inputs for witnesses and counterexamples -/

/-- A concrete stored exposure. -/
def expW : Exposure := { image := 10, detector := 0, objectsMasked := false }

/-- A one-exposure storage heap. -/
def heapW : List Exposure := [expW]

/-- A butler with one unit (id 0), one-component background history `[1]`. -/
def butlerW : Butler :=
  { calexpRef := fun _ d => if d = 0 then some 0 else none
    calexpBackground := fun _ => [1]
    skyData := fun _ => 2 }

/-- The initial pool state over `heapW`. -/
def poolW : PoolState := { heap := heapW, caches := fun _ => none }

/-- A concrete model configuration. -/
def fpbConfigW : FocalPlaneBackgroundConfig := { xSize := 256, ySize := 256 }

/-- All optional phases disabled. -/
def configNone : SkyCorrectionConfig :=
  { doMaskObjects := false, doBgModel := false, doBgModel2 := false, doSky := false
    binning := 8, hasFakes := false, bgModel := fpbConfigW, bgModel2 := fpbConfigW }

/-- All optional phases enabled. -/
def configAll : SkyCorrectionConfig :=
  { configNone with
    doMaskObjects := true, doBgModel := true, doBgModel2 := true, doSky := true }

/-- Only the first background-model phase enabled. -/
def configPhaseA : SkyCorrectionConfig := { configNone with doBgModel := true }

/-- A 4-exposure storage heap. -/
def heapW4 : List Exposure :=
  [{ image := 10, detector := 0, objectsMasked := false },
   { image := 20, detector := 1, objectsMasked := false },
   { image := 30, detector := 2, objectsMasked := false },
   { image := 40, detector := 3, objectsMasked := false }]

/-- A butler with four units (ids 0-3), each with a one-component history. -/
def butlerW4 : Butler :=
  { calexpRef := fun _ d => if d < 4 then some d else none
    calexpBackground := fun d => [Int.ofNat d + 1]
    skyData := fun _ => 2 }

/-- The initial pool state over `heapW4`. -/
def poolW4 : PoolState := { heap := heapW4, caches := fun _ => none }

/-- A cache recorded for unit 1 (used to exercise the affinity assert). -/
def cacheW : UnitCache := { dataId := 1, bgList := [], sky := none }

/-- A concrete one-cell model. -/
def modelW : FocalPlaneBackground := { values := [0], numbers := [0] }

/-- The one-unit butler is well formed over `poolW`. -/
theorem butlerW_wf : ∀ t d r, butlerW.calexpRef t d = some r → r < poolW.heap.length := by
  intro t d r h
  simp only [butlerW] at h
  by_cases hd : d = 0
  · rw [if_pos hd] at h
    cases h
    decide
  · rw [if_neg hd] at h
    exact Option.noConfusion h

/-- The four-unit butler is well formed over `poolW4`. -/
theorem butlerW4_wf : ∀ t d r, butlerW4.calexpRef t d = some r → r < poolW4.heap.length := by
  intro t d r h
  simp only [butlerW4] at h
  by_cases hd : d < 4
  · rw [if_pos hd] at h
    cases h
    exact hd
  · rw [if_neg hd] at h
    exact Option.noConfusion h

/-- Extraction of the post-pipeline image, summed background list and stored
image of unit 0 for the all-phases-disabled job on `butlerW`. -/
def checkC5 : Option (Int × Int × Int) :=
  match runDataRef configNone butlerW 3 [0] poolW with
  | .error _ => none
  | .ok res =>
    match res.state.caches 0 with
    | none => none
    | some e =>
      match res.state.heap[e.ref]? with
      | none => none
      | some exp =>
        some (exp.image, e.cache.bgList.sum,
          (storedExp configNone butlerW poolW.heap 0).image)

/-- C5 counterexample: on the concrete one-unit job with every optional
phase disabled, the post-pipeline image is 11, the summed background list is
-1, and the stored image is 10; subtracting the summed list from the
post-pipeline image gives 12, which reproduces neither the originally stored
image (10) nor the restored, uncorrected image (10 plus the history sum) —
so the claim's subtraction direction is false; addition is what restores the
stored image. -/
theorem bgList_subtract_counterexample :
    checkC5 = some (11, -1, 10) ∧
    ¬ ((11 : Int) - (-1) = 10) ∧
    ¬ ((11 : Int) - (-1) = 10 + (butlerW.calexpBackground 0).sum) := by
  refine ⟨rfl, by decide, by decide⟩

/-! ## Witnesses -/

/-- Witness for C1: the hypotheses are satisfiable on a concrete job and the
theorem then yields a successful run. -/
theorem runDataRef_bgList_components_witness :
    (jobDataIdList configAll butlerW [0]).Nodup ∧
    ∃ res : JobResult, runDataRef configAll butlerW 3 [0] poolW = Except.ok res := by
  refine ⟨by decide, ?_⟩
  obtain ⟨res, hrun, _⟩ :=
    runDataRef_bgList_components configAll butlerW 3 [0] poolW butlerW_wf (by decide)
  exact ⟨res, hrun⟩

/-- Witness for C2 at concrete inputs: every affinity stage rejects a
mismatched identifier, and a matching one is never rejected. -/
theorem stage_cache_consistency_witness :
    measureSkyFrame butlerW expW cacheW 2 = .error .cacheMismatch ∧
    subtractSkyFrame expW cacheW 2 5 = .error .cacheMismatch ∧
    accumulateModel expW cacheW ⟨2, modelW⟩ = .error .cacheMismatch ∧
    subtractModel modelW expW cacheW 2 = .error .cacheMismatch ∧
    measureSkyFrame butlerW expW cacheW 1 ≠ .error .cacheMismatch := by
  refine ⟨?_, ?_, ?_, ?_, ?_⟩
  · exact (stage_cache_consistency butlerW expW cacheW 2 5 ⟨2, modelW⟩ modelW).1
      (by decide)
  · exact (stage_cache_consistency butlerW expW cacheW 2 5 ⟨2, modelW⟩ modelW).2.2.1
      (by decide)
  · exact (stage_cache_consistency butlerW expW cacheW 2 5 ⟨2, modelW⟩
      modelW).2.2.2.2.1 (by decide)
  · exact (stage_cache_consistency butlerW expW cacheW 2 5 ⟨2, modelW⟩
      modelW).2.2.2.2.2.2.1 (by decide)
  · exact (stage_cache_consistency butlerW expW cacheW 1 5 ⟨2, modelW⟩ modelW).2.1 rfl

/-- Witness for C3 at a concrete unit: the load equation holds with both
hypotheses discharged by `rfl`. -/
theorem loadImage_spec_witness :
    loadImage configAll butlerW poolW 0 = Except.ok
      ({ heap := poolW.heap ++
            [{ image := expW.image + (butlerW.calexpBackground 0).sum
               detector := expW.detector
               objectsMasked := configAll.doMaskObjects || expW.objectsMasked }]
         caches := fun x => if x = 0
             then some ⟨loadCache butlerW 0, poolW.heap.length⟩
             else poolW.caches x },
       (expW.detector, expW.image + (butlerW.calexpBackground 0).sum)) :=
  loadImage_spec configAll butlerW poolW 0 0 expW rfl rfl

/-- A concrete model fragment. -/
def fragW1 : FocalPlaneBackground := { values := [1], numbers := [2] }

/-- Another concrete model fragment. -/
def fragW2 : FocalPlaneBackground := { values := [3], numbers := [4] }

/-- Witness for C4 at a concrete pair of fragment lists. -/
theorem merge_order_independent_witness :
    ([fragW1, fragW2] : List FocalPlaneBackground).Perm [fragW2, fragW1] ∧
    ([fragW1, fragW2] : List FocalPlaneBackground).foldl
        (fun m p => m.merge p) (FocalPlaneBackground.fromCamera fpbConfigW 2)
      = ([fragW2, fragW1] : List FocalPlaneBackground).foldl
          (fun m p => m.merge p) (FocalPlaneBackground.fromCamera fpbConfigW 2) :=
  ⟨List.Perm.swap fragW2 fragW1 [],
   merge_order_independent fpbConfigW 2 _ _ (List.Perm.swap fragW2 fragW1 [])⟩

/-- Witness for C5 (amended) on a concrete job. -/
theorem bgList_restores_stored_image_witness :
    (jobDataIdList configAll butlerW [0]).Nodup ∧
    ∃ res : JobResult, runDataRef configAll butlerW 3 [0] poolW = Except.ok res := by
  refine ⟨by decide, ?_⟩
  obtain ⟨res, hrun, _⟩ :=
    bgList_restores_stored_image configAll butlerW 3 [0] poolW butlerW_wf (by decide)
  exact ⟨res, hrun⟩

/-- Witness for C6: the 4-unit phase-A-only scenario runs and persists 4
background lists. -/
theorem endToEnd_phaseA_two_components_witness :
    (jobDataIdList configPhaseA butlerW4 [0, 1, 2, 3]).length = 4 ∧
    ∃ res : JobResult,
      runDataRef configPhaseA butlerW4 5 [0, 1, 2, 3] poolW4 = Except.ok res ∧
      res.skyCorrPut.length = 4 := by
  refine ⟨by decide, ?_⟩
  obtain ⟨res, hrun, hlen, _⟩ :=
    endToEnd_phaseA_two_components configPhaseA butlerW4 5 [0, 1, 2, 3] poolW4
      rfl rfl rfl butlerW4_wf (by decide) (by decide)
      (fun d _ => ⟨Int.ofNat d + 1, rfl⟩)
  exact ⟨res, hrun, hlen⟩

/-- Witness for C7 at a concrete measurement list with one outlier. -/
theorem solveScales_consensus_witness :
    2 ≤ 2 ∧ ([5, 100, 5] : List Int).Perm (List.replicate 2 5 ++ [100]) ∧
    solveScales [5, 100, 5] = 5 := by
  have hp : ([5, 100, 5] : List Int).Perm (List.replicate 2 5 ++ [100]) :=
    List.Perm.cons 5 (List.Perm.swap 5 100 [])
  exact ⟨by decide, hp, solveScales_consensus 2 5 100 [5, 100, 5] (by decide) hp⟩

/-- Witness for C9 on a concrete job: the stored exposure's heap cell is
unchanged by the whole pipeline. -/
theorem loadImage_clone_isolation_witness :
    (jobDataIdList configAll butlerW [0]).Nodup ∧
    ∃ res : JobResult, runDataRef configAll butlerW 3 [0] poolW = Except.ok res ∧
      res.state.heap[0]? = poolW.heap[0]? := by
  refine ⟨by decide, ?_⟩
  obtain ⟨res, hrun, hfroz, _, _⟩ :=
    loadImage_clone_isolation configAll butlerW 3 [0] poolW butlerW_wf (by decide)
  exact ⟨res, hrun, hfroz 0 (by decide)⟩

/-- Witness for C10 at a concrete enumeration. -/
theorem jobDataIdList_spec_witness :
    (0 ∈ jobDataIdList configNone butlerW [0, 1] ↔
      0 ∈ [0, 1] ∧ (butlerW.calexpRef (calexpType configNone) 0).isSome = true) ∧
    ∃ out, loadImage configNone butlerW poolW 0 = Except.ok out := by
  refine ⟨(jobDataIdList_spec configNone butlerW [0, 1]).1 0, ?_⟩
  refine (jobDataIdList_spec configNone butlerW [0, 1]).2.2 0 (by decide) poolW ?_
  intro ro h
  have h' : (some 0 : Option Nat) = some ro := h
  cases h'
  decide

end SkyCorr
